import Mathlib

/-!
Shallow embedding of the MVCC delta-tracking layer
(`src/tablet/delta_tracker.cc`): the DeltaTracker orchestrator, its flush
protocol, the directory-scanning Open, and the DeltaIteratorMerger.

The tracker and merger logic is translated from the source file.  The
internals of DeltaMemStore, DeltaFile reader/writer and the per-store
iterators are not part of the given sources (only their call sites are),
so they are modelled from the spec, as marked on each such definition.

Handle identity (shared_ptr pointer equality, used by the flush
commit-phase CHECK_EQ) is modelled by giving each DeltaMemStore an `id`
field; a freshly allocated DMS receives a fresh id.
-/

/-- A RowChangeList is either a set of (column, new value) pairs or a
delete marker (spec section 3). -/
inductive RowChangeList where
  | update (cols : List (Nat × Nat))
  | delete
deriving DecidableEq

/-- A mutation: row index, transaction id, and the encoded change. -/
structure Mutation where
  txid : Nat
  row : Nat
  change : RowChangeList
deriving DecidableEq

/-- Modelled from the spec: the MvccSnapshot is an opaque visibility
predicate over transaction ids (spec section 2). -/
structure MvccSnapshot where
  visible : Nat → Bool

/-- Key order used by the DMS: (row index, transaction id). -/
def mutKeyLt (a b : Mutation) : Prop :=
  a.row < b.row ∨ (a.row = b.row ∧ a.txid < b.txid)

instance (a b : Mutation) : Decidable (mutKeyLt a b) := by
  unfold mutKeyLt; infer_instance

/-- Modelled from the spec: insertion into the DMS's ordered structure,
keeping mutations sorted by (row index, transaction id); an entry with an
equal key is inserted after the existing ones (spec section 4.2). -/
def insertMut : List Mutation → Mutation → List Mutation
  | [], m => [m]
  | x :: xs, m => if mutKeyLt m x then m :: x :: xs else x :: insertMut xs m

/-- Modelled from the spec: DeltaMemStore, the in-memory mutable store of
pending mutations ordered by (row index, transaction id) (spec
section 4.2).  The `id` field models the identity of the heap-allocated
object behind the shared_ptr handle. -/
structure DeltaMemStore where
  id : Nat
  mutations : List Mutation
deriving DecidableEq

/-- Modelled from the spec: DeltaMemStore::Update inserts a mutation
(spec section 4.2). -/
def DeltaMemStore.Update (d : DeltaMemStore) (txid row : Nat)
    (change : RowChangeList) : DeltaMemStore :=
  { d with mutations := insertMut d.mutations ⟨txid, row, change⟩ }

/-- Modelled from the spec: DeltaMemStore::Count (spec section 4.2). -/
def DeltaMemStore.Count (d : DeltaMemStore) : Nat :=
  d.mutations.length

/-- A delta store handle: either the in-memory mutable store or an
on-disk immutable delta file (its sequence index and decoded content). -/
inductive DeltaStore where
  | memStore (d : DeltaMemStore)
  | file (idx : Nat) (mutations : List Mutation)
deriving DecidableEq

/-- The mutation content of a store, in the store's (row, txid) order. -/
def DeltaStore.mutations : DeltaStore → List Mutation
  | .memStore d => d.mutations
  | .file _ ms => ms

/-- Status kinds of the error taxonomy (spec section 7). -/
inductive Status where
  | iOError (msg : String)
  | corruption (msg : String)
  | notFound (msg : String)
  | invariantViolation (msg : String)
deriving DecidableEq

def Status.isCorruption : Status → Bool
  | .corruption _ => true
  | _ => false

/-- The DeltaTracker state: ordered store list, active DMS, next
delta-file sequence index, rowset directory, row count, open flag
(delta_tracker.cc, constructor at lines 146-157). -/
structure DeltaTracker where
  dir : String
  num_rows : Nat
  open_ : Bool
  next_deltafile_idx : Nat
  dms : DeltaMemStore
  delta_stores : List DeltaStore
deriving DecidableEq

/-- The DeltaTracker constructor: empty store list, not open, next index
0, a fresh empty DMS. -/
def DeltaTracker.create (dir : String) (num_rows : Nat) : DeltaTracker :=
  { dir := dir
    num_rows := num_rows
    open_ := false
    next_deltafile_idx := 0
    dms := ⟨0, []⟩
    delta_stores := [] }

/-- CollectStores: copy of the store list with the active DMS appended
(delta_tracker.cc lines 206-210).  Returned together with the
post-call tracker state to express the frame. -/
def DeltaTracker.CollectStores (t : DeltaTracker) :
    List DeltaStore × DeltaTracker :=
  (t.delta_stores ++ [DeltaStore.memStore t.dms], t)

/-- Update: append to the active DMS (delta_tracker.cc lines 226-233). -/
def DeltaTracker.Update (t : DeltaTracker) (txid row : Nat)
    (change : RowChangeList) : DeltaTracker :=
  { t with dms := t.dms.Update txid row change }

/-- Path helper, from DiskRowSet::GetDeltaPath: `dir/delta_<N>`. -/
def joinPath (dir child : String) : String := dir ++ "/" ++ child

def getDeltaPath (dir : String) (idx : Nat) : String :=
  joinPath dir ("delta_" ++ toString idx)

/-- Flush swap phase (delta_tracker.cc lines 297-312): under the
exclusive lock, if the DMS is empty return none (no-op); otherwise
capture the DMS, install a brand-new empty one (fresh handle id), and
push the captured DMS onto the store list. -/
def DeltaTracker.flushSwap (t : DeltaTracker) :
    Option (DeltaTracker × DeltaMemStore) :=
  if t.dms.Count = 0 then none
  else
    let old_dms := t.dms
    some ({ t with
              dms := ⟨t.dms.id + 1, []⟩
              delta_stores := t.delta_stores ++ [DeltaStore.memStore old_dms] },
          old_dms)

/-- FlushDMS (delta_tracker.cc lines 258-289): allocate the next
sequence index, write the DMS content to `delta_<idx>`, and reopen it as
a reader.  Returns the updated tracker (index bumped), the written path,
and the reader on the new file. -/
def DeltaTracker.FlushDMS (t : DeltaTracker) (dms : DeltaMemStore) :
    DeltaTracker × String × DeltaStore :=
  let deltafile_idx := t.next_deltafile_idx
  ({ t with next_deltafile_idx := deltafile_idx + 1 },
   getDeltaPath t.dir deltafile_idx,
   DeltaStore.file deltafile_idx dms.mutations)

/-- Flush commit phase (delta_tracker.cc lines 330-337): re-take the
lock, verify the last slot still holds exactly the captured DMS
(CHECK_EQ, modelled as returning none on failure), and replace it with
the reader. -/
def DeltaTracker.flushCommit (t : DeltaTracker) (old_dms : DeltaMemStore)
    (dfr : DeltaStore) : Option DeltaTracker :=
  match t.delta_stores.getLast? with
  | some s =>
      if s = DeltaStore.memStore old_dms then
        some { t with delta_stores := t.delta_stores.dropLast ++ [dfr] }
      else none
  | none => none

/-- Flush (delta_tracker.cc lines 291-343), sequential composition of
the three phases.  The second component records the written delta file
(path and content), none when the flush was a no-op.  The outer Option
models the CHECK aborts: none is an invariant-violation abort. -/
def DeltaTracker.Flush (t : DeltaTracker) :
    Option (DeltaTracker × Option (String × List Mutation)) :=
  match t.flushSwap with
  | none => some (t, none)
  | some (t₁, old_dms) =>
      let (t₂, path, dfr) := t₁.FlushDMS old_dms
      match t₂.flushCommit old_dms dfr with
      | some t₃ => some (t₃, some (path, dfr.mutations))
      | none => none

/-- File-name tag of delta files, from DiskRowSet::kDeltaPrefix:
files are named `delta_<N>` (spec section 6). -/
def kDeltaFileTag : String := "delta_"

/-- File-name tag of column data files, from DiskRowSet::kColumnPrefix, a
distinct recognized tag that this subsystem ignores (spec section 6). -/
def kColumnTag : String := "col_"

/-- Character-list view of string operations, so that the embedding is
executable down to the kernel. -/
def strStarts (s tag : String) : Bool :=
  tag.data.isPrefixOf s.data

def strDrop (s : String) (n : Nat) : String :=
  ⟨s.data.drop n⟩

/-- TryStripPrefixString from gutil: if `child` starts with `tag`,
return the remaining suffix. -/
def tryStrip (tag child : String) : Option String :=
  if strStarts child tag then some (strDrop child tag.data.length) else none

/-- Modelled from the spec: safe_strtou32 (gutil, not under src/) parses
a non-negative decimal sequence index that fits in 32 bits; any other
string is rejected (spec sections 4.3 and 6). -/
def safe_strtou32 (s : String) : Option Nat :=
  if s.data = [] then none
  else if s.data.all Char.isDigit then
    let v := s.data.foldl (fun a c => a * 10 + (c.toNat - 48)) 0
    if v < 2 ^ 32 then some v else none
  else none

/-- The file-system abstraction consumed by Open (spec section 6): the
rowset directory's children in enumeration order, and the result of
opening a delta file at an absolute path as a DeltaFileReader (ok with
its decoded mutations, or the reader's error). -/
structure Env where
  children : List String
  openDelta : String → Except Status (List Mutation)

/-- The directory-scan loop of Open (delta_tracker.cc lines 167-200):
skip hidden entries; a `delta_` entry has its suffix parsed (malformed is
an IOError) and is opened and appended, bumping the next index; a `col_`
entry is expected column data; anything else is logged and skipped. -/
def openLoop (env : Env) (dir : String) :
    List String → List DeltaStore → Nat → Except Status (List DeltaStore × Nat)
  | [], stores, nidx => .ok (stores, nidx)
  | child :: rest, stores, nidx =>
    if strStarts child "." then openLoop env dir rest stores nidx
    else
      match tryStrip kDeltaFileTag child with
      | some suffix =>
        match safe_strtou32 suffix with
        | none => .error (.iOError ("Bad delta file: " ++ joinPath dir child))
        | some deltafile_idx =>
          match env.openDelta (joinPath dir child) with
          | .error s => .error s
          | .ok muts =>
              openLoop env dir rest
                (stores ++ [DeltaStore.file deltafile_idx muts])
                (max nidx (deltafile_idx + 1))
      | none =>
        match tryStrip kColumnTag child with
        | some _ => openLoop env dir rest stores nidx
        | none => openLoop env dir rest stores nidx

/-- Open (delta_tracker.cc lines 161-203).  The outer Option models the
CHECK preconditions (empty store list, not already open): none is a
CHECK abort.  On a scan error the error status is returned and the
tracker is not produced. -/
def DeltaTracker.Open (env : Env) (t : DeltaTracker) :
    Option (Except Status DeltaTracker) :=
  if t.delta_stores = [] ∧ t.open_ = false then
    some (match openLoop env t.dir env.children t.delta_stores
            t.next_deltafile_idx with
          | .error s => .error s
          | .ok (stores, nidx) =>
              .ok { t with delta_stores := stores, next_deltafile_idx := nidx })
  else none

/-- Decidable equality for Except results, so that concrete runs of Open
can be checked by evaluation. -/
instance {ε α : Type} [DecidableEq ε] [DecidableEq α] :
    DecidableEq (Except ε α) := fun a b =>
  match a, b with
  | .error x, .error y =>
      if h : x = y then .isTrue (by rw [h])
      else .isFalse (fun c => by cases c; exact h rfl)
  | .error _, .ok _ => .isFalse (fun c => by cases c)
  | .ok _, .error _ => .isFalse (fun c => by cases c)
  | .ok x, .ok y =>
      if h : x = y then .isTrue (by rw [h])
      else .isFalse (fun c => by cases c; exact h rfl)

/-- Whether a list of sequence indices is in ascending order. -/
def ascendingB : List Nat → Bool
  | [] => true
  | [_] => true
  | a :: b :: rest => Nat.ble a b && ascendingB (b :: rest)

/-- The sequence indices of the file-backed stores of a list, in list
order. -/
def fileIdxList (l : List DeltaStore) : List Nat :=
  l.filterMap fun s =>
    match s with
    | .file i _ => some i
    | _ => none

/-- Modelled from the spec: a store's own CheckRowDeleted answers against
the store's full committed content — whether it holds a delete marker for
the row (spec section 4.1). -/
def mutsRowDeleted (ms : List Mutation) (row : Nat) : Bool :=
  ms.any fun m => decide (m.row = row ∧ m.change = RowChangeList.delete)

def DeltaStore.rowDeleted (s : DeltaStore) (row : Nat) : Bool :=
  mutsRowDeleted s.mutations row

/-- The backwards walk of CheckRowDeleted over the store list, with its
early return on the first store reporting the row deleted
(delta_tracker.cc lines 247-253). -/
def checkLoop (row : Nat) : List DeltaStore → Bool
  | [] => false
  | s :: rest => if s.rowDeleted row then true else checkLoop row rest

/-- CheckRowDeleted (delta_tracker.cc lines 235-256): the active DMS is
consulted first; on no deletion there, the persisted store list is
walked in reverse order with an early return. -/
def DeltaTracker.CheckRowDeleted (t : DeltaTracker) (row : Nat) : Bool :=
  if (DeltaStore.memStore t.dms).rowDeleted row then true
  else checkLoop row t.delta_stores.reverse

/-- The new value a RowChangeList assigns to a column, if any: the last
(column, value) pair for that column; a delete assigns none. -/
def RowChangeList.colUpdate : RowChangeList → Nat → Option Nat
  | .update cols, col =>
      cols.foldl (fun acc cv => if cv.1 = col then some cv.2 else acc) none
  | .delete, _ => none

/-- Modelled from the spec: the effect of one mutation on the
destination block of a prepared batch [start, start + dst.length): if
visible under the snapshot and updating the requested column of a row of
the batch, it overwrites that row's destination entry in place (spec
section 4.4). -/
def applyMut (snap : MvccSnapshot) (start col : Nat) (dst : List Nat)
    (m : Mutation) : List Nat :=
  if snap.visible m.txid then
    match m.change.colUpdate col with
    | some v =>
        if start ≤ m.row ∧ m.row < start + dst.length then
          dst.set (m.row - start) v
        else dst
    | none => dst
  else dst

/-- Modelled from the spec: a single store iterator's ApplyUpdates
applies the store's mutations in the store's own (row, txid) order (spec
sections 4.3 and 4.4). -/
def storeApplyUpdates (snap : MvccSnapshot) (start col : Nat)
    (ms : List Mutation) (dst : List Nat) : List Nat :=
  ms.foldl (applyMut snap start col) dst

/-- DeltaIteratorMerger::ApplyUpdates (delta_tracker.cc lines 80-85):
delegates to every constituent iterator in store-list order, each
overwriting the destination in place.  Create (lines 122-141) builds one
iterator per store in store-list order; its single-store pass-through
short cut is behaviorally the one-element foldl. -/
def DeltaIteratorMerger.ApplyUpdates (snap : MvccSnapshot) (start col : Nat)
    (stores : List DeltaStore) (dst : List Nat) : List Nat :=
  stores.foldl (fun d s => storeApplyUpdates snap start col s.mutations d) dst

/-- Modelled from the spec: a single store iterator's CollectMutations
appends the store's raw mutations for the rows of the prepared batch to
the output (spec section 4.4). -/
def batchMuts (start len : Nat) (ms : List Mutation) : List Mutation :=
  ms.filter fun m => decide (start ≤ m.row ∧ m.row < start + len)

/-- DeltaIteratorMerger::CollectMutations (delta_tracker.cc lines
94-101): delegates to every constituent iterator in store-list order; no
re-sorting across stores happens afterwards. -/
def DeltaIteratorMerger.CollectMutations (start len : Nat)
    (stores : List DeltaStore) (dst : List Mutation) : List Mutation :=
  stores.foldl (fun d s => d ++ batchMuts start len s.mutations) dst

/-- Whether a mutation list is ordered by transaction id. -/
def sortedByTxid : List Mutation → Bool
  | [] => true
  | [_] => true
  | a :: b :: rest => (a.txid ≤ b.txid : Bool) && sortedByTxid (b :: rest)

/-- The tracker operations that may interleave with a flush between its
swap and commit phases: Update, CollectStores, NewDeltaIterator (which
is CollectStores plus iterator construction) and CheckRowDeleted.  Each
is given by its effect on the tracker state. -/
inductive TrackerOp where
  | update (txid row : Nat) (change : RowChangeList)
  | collectStores
  | newDeltaIterator
  | checkRowDeleted (row : Nat)

def applyOp (t : DeltaTracker) : TrackerOp → DeltaTracker
  | .update txid row change => t.Update txid row change
  | .collectStores => (t.CollectStores).2
  | .newDeltaIterator => (t.CollectStores).2
  | .checkRowDeleted _ => t

/-- A concrete tracker with one pending mutation, used by witnesses. -/
def sampleT1 : DeltaTracker :=
  ⟨"d", 5, false, 0, ⟨0, [⟨1, 2, RowChangeList.delete⟩]⟩, []⟩

/-- A directory whose enumeration returns the three delta entries out of
ascending order; every open succeeds with empty content. -/
def envPerm : Env := ⟨["delta_5", "delta_0", "delta_7"], fun _ => .ok []⟩

/-- A directory listing the three delta entries in ascending order. -/
def envAsc : Env := ⟨["delta_0", "delta_5", "delta_7"], fun _ => .ok []⟩

/-- A directory whose enumeration lists a well-formed delta entry first
and then a delta entry whose suffix is not a decimal index. -/
def envPartial : Env := ⟨["delta_0", "delta_xyz"], fun _ => .ok []⟩

/-- A snapshot under which every transaction is visible. -/
def snapAll : MvccSnapshot := ⟨fun _ => true⟩

/-- One step of the last-visible-write fold: a visible mutation of the
row that updates the column overrides the accumulator. -/
def lwStep (snap : MvccSnapshot) (col row : Nat) (acc : Option Nat)
    (m : Mutation) : Option Nat :=
  if snap.visible m.txid ∧ m.row = row then
    match m.change.colUpdate col with
    | some v => some v
    | none => acc
  else acc

/-- The value of the last visible update to (row, col) in a mutation
list, if any. -/
def lastVisibleWrite (snap : MvccSnapshot) (col row : Nat)
    (ms : List Mutation) : Option Nat :=
  ms.foldl (lwStep snap col row) none

/-- The directory-scan loop of Open again (delta_tracker.cc lines
167-200), this time tracking the in-place mutation of the C++ method:
delta_stores_ and next_deltafile_idx_ are updated by push_back as the
scan proceeds, so on a mid-scan error the entries appended so far are
returned along with the error status rather than discarded.  The first
component is the returned status (none is OK). -/
def openLoopSt (env : Env) (dir : String) :
    List String → List DeltaStore → Nat →
      Option Status × List DeltaStore × Nat
  | [], stores, nidx => (none, stores, nidx)
  | child :: rest, stores, nidx =>
    if strStarts child "." then openLoopSt env dir rest stores nidx
    else
      match tryStrip kDeltaFileTag child with
      | some suffix =>
        match safe_strtou32 suffix with
        | none =>
            (some (.iOError ("Bad delta file: " ++ joinPath dir child)),
             stores, nidx)
        | some deltafile_idx =>
          match env.openDelta (joinPath dir child) with
          | .error s => (some s, stores, nidx)
          | .ok muts =>
              openLoopSt env dir rest
                (stores ++ [DeltaStore.file deltafile_idx muts])
                (max nidx (deltafile_idx + 1))
      | none =>
        match tryStrip kColumnTag child with
        | some _ => openLoopSt env dir rest stores nidx
        | none => openLoopSt env dir rest stores nidx

/-- Open (delta_tracker.cc lines 161-203) as the C++ method executes: it
mutates this->delta_stores_ and this->next_deltafile_idx_ while
scanning and returns a Status, so the post-call tracker retains the
stores appended before a failing entry.  The outer Option models the
CHECK preconditions, as in DeltaTracker.Open. -/
def DeltaTracker.OpenInPlace (env : Env) (t : DeltaTracker) :
    Option (Option Status × DeltaTracker) :=
  if t.delta_stores = [] ∧ t.open_ = false then
    let r := openLoopSt env t.dir env.children t.delta_stores
               t.next_deltafile_idx
    some (r.1, { t with delta_stores := r.2.1, next_deltafile_idx := r.2.2 })
  else none

/-- C1: on a tracker whose active DMS holds at least one mutation, the
swap phase installs a brand-new empty DMS (fresh handle) and appends the
captured DMS as the last element of the store list; the whole flush
succeeds, grows the store list by exactly one, and its last slot ends up
holding a DeltaFile reader on the newly written file with the captured
mutations. -/
theorem C1_flush_swaps_and_installs_reader (t : DeltaTracker)
    (h : 0 < t.dms.Count) :
    t.flushSwap =
      some ({ t with
                dms := ⟨t.dms.id + 1, []⟩
                delta_stores :=
                  t.delta_stores ++ [DeltaStore.memStore t.dms] },
            t.dms)
    ∧ t.Flush =
      some ({ t with
                dms := ⟨t.dms.id + 1, []⟩
                delta_stores :=
                  t.delta_stores ++
                    [DeltaStore.file t.next_deltafile_idx t.dms.mutations]
                next_deltafile_idx := t.next_deltafile_idx + 1 },
            some (getDeltaPath t.dir t.next_deltafile_idx, t.dms.mutations))
    ∧ (t.delta_stores ++
         [DeltaStore.file t.next_deltafile_idx t.dms.mutations]).length
        = t.delta_stores.length + 1 := by
  have hne : ¬ t.dms.Count = 0 := by omega
  refine ⟨by simp [DeltaTracker.flushSwap, hne], ?_, by simp⟩
  simp [DeltaTracker.Flush, DeltaTracker.flushSwap, hne, DeltaTracker.FlushDMS,
    DeltaTracker.flushCommit, DeltaStore.mutations]

theorem C1_witness :
    0 < sampleT1.dms.Count ∧
    (sampleT1.flushSwap =
      some ({ sampleT1 with
                dms := ⟨sampleT1.dms.id + 1, []⟩
                delta_stores :=
                  sampleT1.delta_stores ++ [DeltaStore.memStore sampleT1.dms] },
            sampleT1.dms)
    ∧ sampleT1.Flush =
      some ({ sampleT1 with
                dms := ⟨sampleT1.dms.id + 1, []⟩
                delta_stores :=
                  sampleT1.delta_stores ++
                    [DeltaStore.file sampleT1.next_deltafile_idx
                      sampleT1.dms.mutations]
                next_deltafile_idx := sampleT1.next_deltafile_idx + 1 },
            some (getDeltaPath sampleT1.dir sampleT1.next_deltafile_idx,
                  sampleT1.dms.mutations))
    ∧ (sampleT1.delta_stores ++
         [DeltaStore.file sampleT1.next_deltafile_idx
           sampleT1.dms.mutations]).length
        = sampleT1.delta_stores.length + 1) :=
  ⟨by decide, C1_flush_swaps_and_installs_reader sampleT1 (by decide)⟩

/-- C5: on a tracker whose active DMS holds zero mutations, Flush
returns success with the tracker exactly unchanged (store list, next
sequence index and active DMS included) and no delta file written. -/
theorem C5_flush_empty_dms_noop (t : DeltaTracker) (h : t.dms.Count = 0) :
    t.Flush = some (t, none) := by
  simp [DeltaTracker.Flush, DeltaTracker.flushSwap, h]

theorem C5_witness :
    (DeltaTracker.create "d" 4).dms.Count = 0 ∧
    (DeltaTracker.create "d" 4).Flush = some (DeltaTracker.create "d" 4, none) :=
  ⟨by decide, C5_flush_empty_dms_noop (DeltaTracker.create "d" 4) (by decide)⟩

/-- C6: CollectStores returns exactly the store list, in stored order,
with the active DMS appended as the final element, and leaves the
tracker unchanged. -/
theorem C6_collectStores_copy_plus_dms (t : DeltaTracker) :
    (t.CollectStores).1 = t.delta_stores ++ [DeltaStore.memStore t.dms]
    ∧ (t.CollectStores).1.dropLast = t.delta_stores
    ∧ (t.CollectStores).1.getLast? = some (DeltaStore.memStore t.dms)
    ∧ (t.CollectStores).2 = t := by
  refine ⟨rfl, ?_, ?_, rfl⟩ <;> simp [DeltaTracker.CollectStores]

/-- C10: Update only mutates the content of the active DMS — the store
list, the next sequence index, the DMS handle identity and every other
tracker field are unchanged; the DMS content gains exactly the inserted
mutation. -/
theorem C10_update_frame (t : DeltaTracker) (txid row : Nat)
    (change : RowChangeList) (h : row < t.num_rows) :
    (t.Update txid row change).delta_stores = t.delta_stores
    ∧ (t.Update txid row change).next_deltafile_idx = t.next_deltafile_idx
    ∧ (t.Update txid row change).dms.id = t.dms.id
    ∧ (t.Update txid row change).dir = t.dir
    ∧ (t.Update txid row change).num_rows = t.num_rows
    ∧ (t.Update txid row change).open_ = t.open_
    ∧ (t.Update txid row change).dms.mutations
        = insertMut t.dms.mutations ⟨txid, row, change⟩ :=
  ⟨rfl, rfl, rfl, rfl, rfl, rfl, rfl⟩

/-- Scan-loop step: a visible `delta_` entry with a parsable suffix that
opens successfully is appended and bumps the next index. -/
theorem openLoop_cons_delta (env : Env) (dir : String)
    (stores : List DeltaStore) (nidx : Nat) (child : String)
    (rest : List String) (suffix : String) (idx : Nat) (muts : List Mutation)
    (h1 : strStarts child "." = false)
    (h2 : tryStrip kDeltaFileTag child = some suffix)
    (h3 : safe_strtou32 suffix = some idx)
    (h4 : env.openDelta (joinPath dir child) = .ok muts) :
    openLoop env dir (child :: rest) stores nidx
      = openLoop env dir rest (stores ++ [DeltaStore.file idx muts])
          (max nidx (idx + 1)) := by
  simp [openLoop, h1, h2, h3, h4]

/-- Scan-loop step: a visible `delta_` entry whose suffix does not parse
stops the scan with an IOError. -/
theorem openLoop_cons_badparse (env : Env) (dir : String)
    (stores : List DeltaStore) (nidx : Nat) (child : String)
    (rest : List String) (suffix : String)
    (h1 : strStarts child "." = false)
    (h2 : tryStrip kDeltaFileTag child = some suffix)
    (h3 : safe_strtou32 suffix = none) :
    openLoop env dir (child :: rest) stores nidx
      = .error (.iOError ("Bad delta file: " ++ joinPath dir child)) := by
  simp [openLoop, h1, h2, h3]

/-- Scan-loop step: a visible `delta_` entry that fails to open stops
the scan with the reader's own error. -/
theorem openLoop_cons_openfail (env : Env) (dir : String)
    (stores : List DeltaStore) (nidx : Nat) (child : String)
    (rest : List String) (suffix : String) (idx : Nat) (s : Status)
    (h1 : strStarts child "." = false)
    (h2 : tryStrip kDeltaFileTag child = some suffix)
    (h3 : safe_strtou32 suffix = some idx)
    (h4 : env.openDelta (joinPath dir child) = .error s) :
    openLoop env dir (child :: rest) stores nidx = .error s := by
  simp [openLoop, h1, h2, h3, h4]

/-- Scan-loop step: a visible entry that does not carry the delta tag
(column data or unknown) is skipped without failing. -/
theorem openLoop_cons_skip (env : Env) (dir : String)
    (stores : List DeltaStore) (nidx : Nat) (child : String)
    (rest : List String)
    (h1 : strStarts child "." = false)
    (h2 : tryStrip kDeltaFileTag child = none) :
    openLoop env dir (child :: rest) stores nidx
      = openLoop env dir rest stores nidx := by
  conv_lhs => rw [openLoop]
  rcases hcol : tryStrip kColumnTag child with _ | v <;> simp [h1, h2, hcol]

/-- C2, counterexample: with the enumeration order delta_5, delta_0,
delta_7 (the directory's delta entries are exactly delta_0, delta_5,
delta_7), Open succeeds and next index is 8, but the store list is in
enumeration order 5, 0, 7 — not ascending sequence-index order as the
claim states. -/
theorem C2_counterexample :
    DeltaTracker.Open envPerm (DeltaTracker.create "dir" 10)
      = some (.ok { DeltaTracker.create "dir" 10 with
                      delta_stores := [DeltaStore.file 5 [], DeltaStore.file 0 [],
                                       DeltaStore.file 7 []]
                      next_deltafile_idx := 8 })
    ∧ fileIdxList [DeltaStore.file 5 [], DeltaStore.file 0 [],
                   DeltaStore.file 7 []] = [5, 0, 7]
    ∧ ascendingB [5, 0, 7] = false := by
  refine ⟨by decide, by decide, by decide⟩

/-- C2, amended: Open appends delta stores in directory-enumeration
order; when the enumeration lists exactly delta_0, delta_5, delta_7 in
ascending order and each opens successfully, the fresh tracker ends up
with exactly those three file-backed stores in that order, and the next
allocatable sequence index is 8 = max(parsed indices) + 1. -/
theorem C2_open_three_deltas (env : Env) (dir : String) (n : Nat)
    (m0 m5 m7 : List Mutation)
    (hc : env.children = ["delta_0", "delta_5", "delta_7"])
    (h0 : env.openDelta (joinPath dir "delta_0") = .ok m0)
    (h5 : env.openDelta (joinPath dir "delta_5") = .ok m5)
    (h7 : env.openDelta (joinPath dir "delta_7") = .ok m7) :
    DeltaTracker.Open env (DeltaTracker.create dir n)
      = some (.ok { DeltaTracker.create dir n with
                      delta_stores := [DeltaStore.file 0 m0, DeltaStore.file 5 m5,
                                       DeltaStore.file 7 m7]
                      next_deltafile_idx := 8 }) := by
  have e0 := openLoop_cons_delta env dir [] 0 "delta_0"
    ["delta_5", "delta_7"] "0" 0 m0 (by decide) (by decide) (by decide) h0
  have e5 := openLoop_cons_delta env dir [DeltaStore.file 0 m0] 1 "delta_5"
    ["delta_7"] "5" 5 m5 (by decide) (by decide) (by decide) h5
  have e7 := openLoop_cons_delta env dir
    [DeltaStore.file 0 m0, DeltaStore.file 5 m5] 6 "delta_7"
    [] "7" 7 m7 (by decide) (by decide) (by decide) h7
  simp only [DeltaTracker.Open, DeltaTracker.create, hc]
  norm_num at e0 e5 e7 ⊢
  rw [e0, e5, e7]
  simp [openLoop]

theorem C2_witness :
    envAsc.children = ["delta_0", "delta_5", "delta_7"] ∧
    DeltaTracker.Open envAsc (DeltaTracker.create "d" 10)
      = some (.ok { DeltaTracker.create "d" 10 with
                      delta_stores := [DeltaStore.file 0 [], DeltaStore.file 5 [],
                                       DeltaStore.file 7 []]
                      next_deltafile_idx := 8 }) :=
  ⟨rfl, C2_open_three_deltas envAsc "d" 10 [] [] [] rfl rfl rfl rfl⟩

/-- C4, counterexample: at the directory enumerating delta_0 then the
malformed delta_xyz, open() returns an error for the malformed suffix,
but that error is Status.iOError (delta_tracker.cc line 179), not a
Corruption as the claim states; and the reader already appended for
delta_0 remains in the tracker's store list, so the failed open does
leave a partial (non-empty) store list behind. -/
theorem C4_counterexample :
    DeltaTracker.OpenInPlace envPartial (DeltaTracker.create "d" 10)
      = some (some (Status.iOError ("Bad delta file: " ++ joinPath "d" "delta_xyz")),
              { DeltaTracker.create "d" 10 with
                  delta_stores := [DeltaStore.file 0 []]
                  next_deltafile_idx := 1 })
    ∧ Status.isCorruption
        (Status.iOError ("Bad delta file: " ++ joinPath "d" "delta_xyz")) = false
    ∧ [DeltaStore.file 0 []] ≠ ([] : List DeltaStore) := by
  refine ⟨by decide, by decide, by decide⟩

/-- C4, amended: a malformed delta suffix makes the scan stop with an
IOError (not a Corruption); a matching delta file that fails to open
makes the scan stop with the reader's own error; an entry matching
neither tag is skipped without failing; and on a scan error open()
returns that error while the stores appended before the failing entry
remain in the tracker's store list (the partial list is not rolled
back — the failure is reported through the status, not by a successful
open). -/
theorem C4_open_error_handling :
    (∀ (env : Env) (dir : String) (stores : List DeltaStore) (nidx : Nat)
        (child : String) (rest : List String) (suffix : String),
        strStarts child "." = false →
        tryStrip kDeltaFileTag child = some suffix →
        safe_strtou32 suffix = none →
          openLoopSt env dir (child :: rest) stores nidx
            = (some (.iOError ("Bad delta file: " ++ joinPath dir child)),
               stores, nidx)
          ∧ Status.isCorruption
              (.iOError ("Bad delta file: " ++ joinPath dir child)) = false)
    ∧ (∀ (env : Env) (dir : String) (stores : List DeltaStore) (nidx : Nat)
        (child : String) (rest : List String) (suffix : String) (idx : Nat)
        (s : Status),
        strStarts child "." = false →
        tryStrip kDeltaFileTag child = some suffix →
        safe_strtou32 suffix = some idx →
        env.openDelta (joinPath dir child) = .error s →
          openLoopSt env dir (child :: rest) stores nidx = (some s, stores, nidx))
    ∧ (∀ (env : Env) (dir : String) (stores : List DeltaStore) (nidx : Nat)
        (child : String) (rest : List String),
        strStarts child "." = false →
        tryStrip kDeltaFileTag child = none →
          openLoopSt env dir (child :: rest) stores nidx
            = openLoopSt env dir rest stores nidx)
    ∧ (∀ (env : Env) (t : DeltaTracker) (s : Status)
        (stores' : List DeltaStore) (nidx' : Nat),
        t.delta_stores = [] → t.open_ = false →
        openLoopSt env t.dir env.children t.delta_stores t.next_deltafile_idx
          = (some s, stores', nidx') →
        DeltaTracker.OpenInPlace env t
          = some (some s, { t with delta_stores := stores'
                                   next_deltafile_idx := nidx' })) := by
  refine ⟨?_, ?_, ?_, ?_⟩
  · intro env dir stores nidx child rest suffix h1 h2 h3
    refine ⟨?_, rfl⟩
    simp [openLoopSt, h1, h2, h3]
  · intro env dir stores nidx child rest suffix idx s h1 h2 h3 h4
    simp [openLoopSt, h1, h2, h3, h4]
  · intro env dir stores nidx child rest h1 h2
    conv_lhs => rw [openLoopSt]
    rcases hcol : tryStrip kColumnTag child with _ | v <;> simp [h1, h2, hcol]
  · intro env t s stores' nidx' he ho hl
    rw [he] at hl
    simp [DeltaTracker.OpenInPlace, he, ho, hl]

theorem C4_witness :
    (openLoopSt envPartial "d" ["delta_xyz"] [DeltaStore.file 0 []] 1
        = (some (.iOError ("Bad delta file: " ++ joinPath "d" "delta_xyz")),
           [DeltaStore.file 0 []], 1)
      ∧ Status.isCorruption
          (.iOError ("Bad delta file: " ++ joinPath "d" "delta_xyz")) = false)
    ∧ openLoopSt (Env.mk ["delta_0"] (fun _ => .error (Status.notFound "gone")))
        "d" ["delta_0"] [] 0 = (some (Status.notFound "gone"), [], 0)
    ∧ openLoopSt envPartial "d" ["col_0"] [] 0 = openLoopSt envPartial "d" [] [] 0
    ∧ DeltaTracker.OpenInPlace envPartial (DeltaTracker.create "d" 10)
        = some (some (.iOError ("Bad delta file: " ++ joinPath "d" "delta_xyz")),
                { DeltaTracker.create "d" 10 with
                    delta_stores := [DeltaStore.file 0 []]
                    next_deltafile_idx := 1 }) :=
  ⟨C4_open_error_handling.1 envPartial "d" [DeltaStore.file 0 []] 1 "delta_xyz"
      [] "xyz" (by decide) (by decide) (by decide),
   C4_open_error_handling.2.1
      (Env.mk ["delta_0"] (fun _ => .error (Status.notFound "gone")))
      "d" [] 0 "delta_0" [] "0" 0 (Status.notFound "gone")
      (by decide) (by decide) (by decide) rfl,
   C4_open_error_handling.2.2.1 envPartial "d" [] 0 "col_0" []
      (by decide) (by decide),
   C4_open_error_handling.2.2.2 envPartial (DeltaTracker.create "d" 10)
      (.iOError ("Bad delta file: " ++ joinPath "d" "delta_xyz"))
      [DeltaStore.file 0 []] 1 rfl rfl (by decide)⟩

theorem C10_witness :
    (2 : Nat) < sampleT1.num_rows ∧
    ((sampleT1.Update 3 2 (RowChangeList.update [(0, 5)])).delta_stores
        = sampleT1.delta_stores
    ∧ (sampleT1.Update 3 2 (RowChangeList.update [(0, 5)])).next_deltafile_idx
        = sampleT1.next_deltafile_idx
    ∧ (sampleT1.Update 3 2 (RowChangeList.update [(0, 5)])).dms.id
        = sampleT1.dms.id
    ∧ (sampleT1.Update 3 2 (RowChangeList.update [(0, 5)])).dir = sampleT1.dir
    ∧ (sampleT1.Update 3 2 (RowChangeList.update [(0, 5)])).num_rows
        = sampleT1.num_rows
    ∧ (sampleT1.Update 3 2 (RowChangeList.update [(0, 5)])).open_
        = sampleT1.open_
    ∧ (sampleT1.Update 3 2 (RowChangeList.update [(0, 5)])).dms.mutations
        = insertMut sampleT1.dms.mutations ⟨3, 2, RowChangeList.update [(0, 5)]⟩) :=
  ⟨by decide, C10_update_frame sampleT1 3 2 (RowChangeList.update [(0, 5)]) (by decide)⟩


/-- The early-return walk equals an any-fold over the list. -/
theorem checkLoop_eq_any (row : Nat) (l : List DeltaStore) :
    checkLoop row l = l.any fun s => s.rowDeleted row := by
  induction l with
  | nil => rfl
  | cons s rest ih => by_cases hd : s.rowDeleted row <;> simp [checkLoop, hd, ih]

/-- An any-fold is invariant under permutation of the list. -/
theorem any_perm_eq (p : DeltaStore → Bool) {l l' : List DeltaStore}
    (h : l.Perm l') : l.any p = l'.any p := by
  rw [Bool.eq_iff_iff]
  simp only [List.any_eq_true]
  exact ⟨fun ⟨x, hx, hp⟩ => ⟨x, h.mem_iff.mp hx, hp⟩,
         fun ⟨x, hx, hp⟩ => ⟨x, h.mem_iff.mpr hx, hp⟩⟩

/-- C7: for an in-range row, CheckRowDeleted is true iff the active DMS
or some persisted store reports the row deleted (the DMS is consulted
first and the walk stops at the first hit), and permuting the persisted
store list does not change the returned boolean. -/
theorem C7_check_row_deleted (t : DeltaTracker) (row : Nat)
    (h : row < t.num_rows) :
    (t.CheckRowDeleted row
       = ((DeltaStore.memStore t.dms).rowDeleted row
           || t.delta_stores.any fun s => s.rowDeleted row))
    ∧ ∀ l : List DeltaStore, l.Perm t.delta_stores →
        ({ t with delta_stores := l } : DeltaTracker).CheckRowDeleted row
          = t.CheckRowDeleted row := by
  have main : ∀ t' : DeltaTracker,
      t'.CheckRowDeleted row
        = ((DeltaStore.memStore t'.dms).rowDeleted row
            || t'.delta_stores.any fun s => s.rowDeleted row) := by
    intro t'
    unfold DeltaTracker.CheckRowDeleted
    by_cases hd : (DeltaStore.memStore t'.dms).rowDeleted row
    · simp [hd]
    · simp [hd, checkLoop_eq_any, List.any_reverse]
  refine ⟨main t, ?_⟩
  intro l hperm
  rw [main, main]
  simp only
  rw [any_perm_eq (fun s => s.rowDeleted row) hperm]

theorem C7_witness :
    (2 : Nat) < sampleT1.num_rows ∧
    ((sampleT1.CheckRowDeleted 2
        = ((DeltaStore.memStore sampleT1.dms).rowDeleted 2
            || sampleT1.delta_stores.any fun s => s.rowDeleted 2))
     ∧ ∀ l : List DeltaStore, l.Perm sampleT1.delta_stores →
         ({ sampleT1 with delta_stores := l } : DeltaTracker).CheckRowDeleted 2
           = sampleT1.CheckRowDeleted 2) :=
  ⟨by decide, C7_check_row_deleted sampleT1 2 (by decide)⟩

/-- The interfering operations never touch the store list. -/
theorem applyOp_delta_stores (t : DeltaTracker) (op : TrackerOp) :
    (applyOp t op).delta_stores = t.delta_stores := by
  cases op <;> rfl

theorem foldl_applyOp_delta_stores (ops : List TrackerOp) (t : DeltaTracker) :
    (ops.foldl applyOp t).delta_stores = t.delta_stores := by
  induction ops generalizing t with
  | nil => rfl
  | cons op rest ih => rw [List.foldl_cons, ih, applyOp_delta_stores]

/-- C8: after a swap phase, however many Update / CollectStores /
NewDeltaIterator / CheckRowDeleted calls interleave before the commit
phase, the last slot of the store list still holds exactly the captured
DMS, so the commit-phase verification cannot fail. -/
theorem C8_commit_verification_succeeds (t t₁ : DeltaTracker)
    (old_dms : DeltaMemStore) (ops : List TrackerOp) (dfr : DeltaStore)
    (h : t.flushSwap = some (t₁, old_dms)) :
    (ops.foldl applyOp t₁).delta_stores.getLast?
        = some (DeltaStore.memStore old_dms)
    ∧ ((ops.foldl applyOp t₁).flushCommit old_dms dfr).isSome = true := by
  unfold DeltaTracker.flushSwap at h
  by_cases hc : t.dms.Count = 0
  · simp [hc] at h
  · simp only [hc, if_false, Option.some.injEq, Prod.mk.injEq] at h
    obtain ⟨h1, h2⟩ := h
    have hs : (ops.foldl applyOp t₁).delta_stores
        = t.delta_stores ++ [DeltaStore.memStore old_dms] := by
      rw [foldl_applyOp_delta_stores, ← h1, ← h2]
    refine ⟨?_, ?_⟩
    · rw [hs, List.getLast?_concat]
    · unfold DeltaTracker.flushCommit
      rw [hs, List.getLast?_concat]
      simp

theorem C8_witness :
    sampleT1.flushSwap
        = some ({ sampleT1 with
                    dms := ⟨1, []⟩
                    delta_stores := [DeltaStore.memStore sampleT1.dms] },
                sampleT1.dms) ∧
    (([TrackerOp.update 4 1 (RowChangeList.update [(0, 9)]),
       TrackerOp.collectStores,
       TrackerOp.checkRowDeleted 2].foldl applyOp
        { sampleT1 with
            dms := ⟨1, []⟩
            delta_stores := [DeltaStore.memStore sampleT1.dms] }).delta_stores.getLast?
          = some (DeltaStore.memStore sampleT1.dms)
     ∧ (([TrackerOp.update 4 1 (RowChangeList.update [(0, 9)]),
          TrackerOp.collectStores,
          TrackerOp.checkRowDeleted 2].foldl applyOp
           { sampleT1 with
               dms := ⟨1, []⟩
               delta_stores := [DeltaStore.memStore sampleT1.dms] }).flushCommit
            sampleT1.dms (DeltaStore.file 0 sampleT1.dms.mutations)).isSome = true) :=
  ⟨by decide,
   C8_commit_verification_succeeds sampleT1
     { sampleT1 with
         dms := ⟨1, []⟩
         delta_stores := [DeltaStore.memStore sampleT1.dms] }
     sampleT1.dms
     [TrackerOp.update 4 1 (RowChangeList.update [(0, 9)]),
      TrackerOp.collectStores,
      TrackerOp.checkRowDeleted 2]
     (DeltaStore.file 0 sampleT1.dms.mutations)
     (by decide)⟩

/-- The merger's collect fold is the concatenation of the per-store
batch mutations, in store-list order. -/
theorem collect_foldl_eq (start len : Nat) :
    ∀ (stores : List DeltaStore) (dst : List Mutation),
      DeltaIteratorMerger.CollectMutations start len stores dst
        = dst ++ (stores.map fun s => batchMuts start len s.mutations).flatten := by
  intro stores
  induction stores with
  | nil => intro dst; simp [DeltaIteratorMerger.CollectMutations]
  | cons s rest ih =>
      intro dst
      have step : DeltaIteratorMerger.CollectMutations start len (s :: rest) dst
          = DeltaIteratorMerger.CollectMutations start len rest
              (dst ++ batchMuts start len s.mutations) := rfl
      rw [step, ih]
      simp

/-- C9: CollectMutations on the merged iterator appends each store's
batch mutations to the output in store-list order (oldest first), and
the combined output is not re-sorted by transaction id across stores:
with store 0 carrying txid 5 and store 1 carrying txid 3, each store's
own list is txid-sorted but the merged output is not. -/
theorem C9_collect_mutations_store_order :
    (∀ (start len : Nat) (stores : List DeltaStore) (dst : List Mutation),
        DeltaIteratorMerger.CollectMutations start len stores dst
          = dst ++ (stores.map fun s => batchMuts start len s.mutations).flatten)
    ∧ DeltaIteratorMerger.CollectMutations 0 10
        [DeltaStore.file 0 [⟨5, 1, RowChangeList.delete⟩],
         DeltaStore.file 1 [⟨3, 1, RowChangeList.delete⟩]] []
        = [⟨5, 1, RowChangeList.delete⟩, ⟨3, 1, RowChangeList.delete⟩]
    ∧ sortedByTxid [⟨5, 1, RowChangeList.delete⟩] = true
    ∧ sortedByTxid [⟨3, 1, RowChangeList.delete⟩] = true
    ∧ sortedByTxid
        (DeltaIteratorMerger.CollectMutations 0 10
          [DeltaStore.file 0 [⟨5, 1, RowChangeList.delete⟩],
           DeltaStore.file 1 [⟨3, 1, RowChangeList.delete⟩]] []) = false :=
  ⟨fun start len => collect_foldl_eq start len,
   by decide, by decide, by decide, by decide⟩

/-- applyMut preserves the length of the destination block. -/
theorem applyMut_length (snap : MvccSnapshot) (start col : Nat)
    (dst : List Nat) (m : Mutation) :
    (applyMut snap start col dst m).length = dst.length := by
  unfold applyMut
  by_cases hv : snap.visible m.txid = true
  · rcases hcu : m.change.colUpdate col with _ | v <;> simp [hv, hcu]
    by_cases hr : start ≤ m.row ∧ m.row < start + dst.length <;> simp [hr]
  · simp [hv]

/-- One accumulator step of the last-visible-write fold commutes with
reading through a default. -/
theorem lwStep_acc (snap : MvccSnapshot) (col row : Nat) (acc : Option Nat)
    (m : Mutation) (d : Nat) :
    (lwStep snap col row acc m).getD d
      = (lwStep snap col row none m).getD (acc.getD d) := by
  unfold lwStep
  split
  · rcases hcu : m.change.colUpdate col with _ | v <;> simp [hcu]
  · simp

theorem lw_foldl_acc (snap : MvccSnapshot) (col row : Nat) :
    ∀ (ms : List Mutation) (acc : Option Nat) (d : Nat),
      (ms.foldl (lwStep snap col row) acc).getD d
        = (ms.foldl (lwStep snap col row) none).getD (acc.getD d) := by
  intro ms
  induction ms with
  | nil => intro acc d; rfl
  | cons m rest ih =>
      intro acc d
      rw [List.foldl_cons, List.foldl_cons]
      calc (List.foldl (lwStep snap col row) (lwStep snap col row acc m) rest).getD d
          = (List.foldl (lwStep snap col row) none rest).getD
              ((lwStep snap col row acc m).getD d) := ih _ _
        _ = (List.foldl (lwStep snap col row) none rest).getD
              ((lwStep snap col row none m).getD (acc.getD d)) := by
              rw [lwStep_acc]
        _ = (List.foldl (lwStep snap col row) (lwStep snap col row none m)
              rest).getD (acc.getD d) := (ih _ _).symm

/-- The effect of one mutation on position i of the destination block is
exactly one last-visible-write step for row start + i. -/
theorem applyMut_getD (snap : MvccSnapshot) (start col : Nat)
    (dst : List Nat) (m : Mutation) (i : Nat) (hi : i < dst.length) :
    (applyMut snap start col dst m).getD i 0
      = (lwStep snap col (start + i) none m).getD (dst.getD i 0) := by
  unfold applyMut lwStep
  by_cases hv : snap.visible m.txid = true
  · rcases hcu : m.change.colUpdate col with _ | v
    · by_cases hr : m.row = start + i <;> simp [hv, hcu, hr]
    · by_cases hrow : m.row = start + i
      · have hin : start ≤ m.row ∧ m.row < start + dst.length := by omega
        have hsub : m.row - start = i := by omega
        simp [hv, hcu, hrow, hin, hsub, hi, List.getElem?_set_self]
      · by_cases hin : start ≤ m.row ∧ m.row < start + dst.length
        · have hj : m.row - start ≠ i := by omega
          simp [hv, hcu, hrow, hin, List.getElem?_set_ne hj]
        · simp [hv, hcu, hrow, hin]
  · simp [hv]

/-- Position i of a store's ApplyUpdates result carries the last visible
update to (start + i, col) in the store's mutation list, defaulting to
the prior destination value. -/
theorem storeApplyUpdates_getD (snap : MvccSnapshot) (start col : Nat) :
    ∀ (ms : List Mutation) (dst : List Nat) (i : Nat), i < dst.length →
      (storeApplyUpdates snap start col ms dst).getD i 0
        = (lastVisibleWrite snap col (start + i) ms).getD (dst.getD i 0) := by
  intro ms
  induction ms with
  | nil => intro dst i hi; rfl
  | cons m rest ih =>
      intro dst i hi
      have hlen : i < (applyMut snap start col dst m).length := by
        rw [applyMut_length]; exact hi
      have step : storeApplyUpdates snap start col (m :: rest) dst
          = storeApplyUpdates snap start col rest
              (applyMut snap start col dst m) := rfl
      rw [step, ih _ i hlen]
      unfold lastVisibleWrite
      rw [List.foldl_cons,
          lw_foldl_acc snap col (start + i) rest
            (lwStep snap col (start + i) none m) (dst.getD i 0)]
      rw [applyMut_getD snap start col dst m i hi]

/-- The merger's ApplyUpdates equals a single pass over the stores'
mutation lists concatenated in store-list order. -/
theorem merger_apply_eq_flatten (snap : MvccSnapshot) (start col : Nat) :
    ∀ (stores : List DeltaStore) (dst : List Nat),
      DeltaIteratorMerger.ApplyUpdates snap start col stores dst
        = storeApplyUpdates snap start col
            ((stores.map DeltaStore.mutations).flatten) dst := by
  intro stores
  induction stores with
  | nil => intro dst; rfl
  | cons s rest ih =>
      intro dst
      have step : DeltaIteratorMerger.ApplyUpdates snap start col (s :: rest) dst
          = DeltaIteratorMerger.ApplyUpdates snap start col rest
              (storeApplyUpdates snap start col s.mutations dst) := rfl
      rw [step, ih]
      simp only [List.map_cons, List.flatten_cons]
      unfold storeApplyUpdates
      rw [List.foldl_append]

/-- C3: the merged ApplyUpdates applies stores in store-list order with
in-place overwrites, so position i of the destination ends up holding
the last visible update to (start + i, col) across the concatenation of
all stores' mutations (newest store wins ties), defaulting to the base
value; in the scenario with file 0 writing 1, file 1 writing 2 and the
active DMS writing 3 to row 7 column 1, the merged read yields 3. -/
theorem C3_apply_updates_latest_wins (snap : MvccSnapshot)
    (start col : Nat) (stores : List DeltaStore) (dst : List Nat) (i : Nat)
    (hi : i < dst.length) :
    ((DeltaIteratorMerger.ApplyUpdates snap start col stores dst).getD i 0
       = (lastVisibleWrite snap col (start + i)
            ((stores.map DeltaStore.mutations).flatten)).getD (dst.getD i 0))
    ∧ (DeltaIteratorMerger.ApplyUpdates snapAll 0 1
        [DeltaStore.file 0 [⟨1, 7, RowChangeList.update [(1, 1)]⟩],
         DeltaStore.file 1 [⟨2, 7, RowChangeList.update [(1, 2)]⟩],
         DeltaStore.memStore ⟨0, [⟨3, 7, RowChangeList.update [(1, 3)]⟩]⟩]
        (List.replicate 8 0)).getD 7 0 = 3 := by
  refine ⟨?_, by decide⟩
  rw [merger_apply_eq_flatten]
  exact storeApplyUpdates_getD snap start col _ dst i hi

theorem C3_witness :
    (1 : Nat) < ([0, 0] : List Nat).length ∧
    (((DeltaIteratorMerger.ApplyUpdates snapAll 0 1
         [DeltaStore.file 0 [⟨1, 1, RowChangeList.update [(1, 5)]⟩]]
         [0, 0]).getD 1 0
        = (lastVisibleWrite snapAll 1 (0 + 1)
             (([DeltaStore.file 0 [⟨1, 1, RowChangeList.update [(1, 5)]⟩]].map
                 DeltaStore.mutations).flatten)).getD
            (([0, 0] : List Nat).getD 1 0))
     ∧ (DeltaIteratorMerger.ApplyUpdates snapAll 0 1
         [DeltaStore.file 0 [⟨1, 7, RowChangeList.update [(1, 1)]⟩],
          DeltaStore.file 1 [⟨2, 7, RowChangeList.update [(1, 2)]⟩],
          DeltaStore.memStore ⟨0, [⟨3, 7, RowChangeList.update [(1, 3)]⟩]⟩]
         (List.replicate 8 0)).getD 7 0 = 3) :=
  ⟨by decide,
   C3_apply_updates_latest_wins snapAll 0 1
     [DeltaStore.file 0 [⟨1, 1, RowChangeList.update [(1, 5)]⟩]]
     [0, 0] 1 (by decide)⟩
